import Mathlib

/-!
Shallow embedding of `github-push-issues.py` (template-driven bulk creation of
GitHub milestones and issues) together with proofs about its template parser
(`_Entry.load`), its body cross-reference resolution (Python format-string
substitution over the `milestone`/`issue` context), its orchestrator
(`add_issues`), its source walker (`walk`), and its creation-response handling
(`_Entry.create`).

Strings are modelled as Lean `String`s / `List Char`; streams as the string of
their remaining contents; remote creation as an oracle assigning the numbers the
tracker would return, with the emitted creation payloads collected in a trace.
-/

namespace GPI

instance {ε α : Type} [DecidableEq ε] [DecidableEq α] : DecidableEq (Except ε α) :=
  fun x y =>
  match x, y with
  | .ok a, .ok b =>
    if h : a = b then .isTrue (by rw [h]) else .isFalse (fun hh => by cases hh; exact h rfl)
  | .error a, .error b =>
    if h : a = b then .isTrue (by rw [h]) else .isFalse (fun hh => by cases hh; exact h rfl)
  | .ok _, .error _ => .isFalse (fun hh => by cases hh)
  | .error _, .ok _ => .isFalse (fun hh => by cases hh)

/-- Whether an `Except` result is a success. -/
def exOk {ε α : Type} : Except ε α → Bool
  | .ok _ => true
  | .error _ => false

/-! ### Python string primitives

`str.strip()` removes ASCII whitespace from both ends (the templates are ASCII
at the positions that matter); `str.strip('#')` removes `#` from both ends;
`readline()` returns up to and including the first newline.
-/

def pyIsSpace (c : Char) : Bool :=
  c = ' ' || c = '\t' || c = '\n' || c = '\r' || c = '\x0b' || c = '\x0c'

/-- Remove the characters satisfying `p` from both ends of a list. -/
def stripEnds (p : Char → Bool) (l : List Char) : List Char :=
  ((l.dropWhile p).reverse.dropWhile p).reverse

def pyStripL (l : List Char) : List Char := stripEnds pyIsSpace l

def pyStripHashL (l : List Char) : List Char := stripEnds (fun c => c = '#') l

def pyStrip (s : String) : String := (pyStripL s.toList).asString

/-- `stream.readline()`: the first line (newline included) and the rest. -/
def readLineL : List Char → List Char × List Char
  | [] => ([], [])
  | c :: cs =>
    if c = '\n' then ([c], cs)
    else
      let r := readLineL cs
      (c :: r.1, r.2)

/-- Code-point lexicographic order on char lists (Python string `<`). -/
def lexLtB : List Char → List Char → Bool
  | [], [] => false
  | [], _ :: _ => true
  | _ :: _, [] => false
  | a :: as, b :: bs =>
    if a.toNat < b.toNat then true
    else if a.toNat = b.toNat then lexLtB as bs
    else false

/-- Python `str.endswith`. -/
def pyEndsWith (s suffix : String) : Bool :=
  List.isSuffixOf suffix.toList s.toList

/-- Whether `needle` occurs as a contiguous sublist of `hay` (`in` on Python `str`). -/
def containsSub (needle : List Char) : List Char → Bool
  | [] => needle.isEmpty
  | c :: cs => List.isPrefixOf needle (c :: cs) || containsSub needle cs

def strContains (hay needle : String) : Bool := containsSub needle.toList hay.toList

/-! ### Template parser (`_Entry.load`)

```python
def load(self, stream):
    self.title = stream.readline().strip().strip('#').strip()
    blank = stream.readline().strip()
    if blank:
        raise ValueError('non-blank line after the title: {!r}'.format(blank))
    self.body = ''.join(stream.readlines())
```
-/

structure ParsedTemplate where
  title : String
  body : String
deriving DecidableEq

/-- A single-quote character, written by code point. -/
def sq : Char := Char.ofNat 39

/-- Python `repr` of a string, for the escapes that can appear here. -/
def pyReprStr (s : String) : String :=
  String.singleton sq ++
    (s.toList.map (fun c =>
      if c = '\n' then "\\n"
      else if c = '\r' then "\\r"
      else if c = '\t' then "\\t"
      else if c = '\\' then "\\\\"
      else if c = sq then "\\" ++ String.singleton sq
      else String.singleton c)).foldl (· ++ ·) "" ++
    String.singleton sq

def nonBlankMsg (blank : String) : String :=
  "non-blank line after the title: " ++ pyReprStr blank

/-- The title computed from the first line of a stream:
`readline().strip().strip('#').strip()`. -/
def pyTitleL (input : List Char) : List Char :=
  pyStripL (pyStripHashL (pyStripL (readLineL input).1))

def loadTemplateL (input : List Char) : Except String ParsedTemplate :=
  let r1 := readLineL input
  let title := pyStripL (pyStripHashL (pyStripL r1.1))
  let r2 := readLineL r1.2
  let blank := pyStripL r2.1
  if blank.isEmpty then .ok ⟨title.asString, r2.2.asString⟩
  else .error (nonBlankMsg blank.asString)

def loadTemplate (input : String) : Except String ParsedTemplate :=
  loadTemplateL input.toList

/-- The second line of a stream, whitespace-stripped (what the parser tests). -/
def secondStripped (input : String) : List Char :=
  pyStripL (readLineL (readLineL input.toList).2).1

/-! ### Reference Context and body resolution

`add_issues` resolves each body with `body.format(**context)` where `context`
is `{'milestone': {path: Milestone}, 'issue': {path: Issue}}`.  We model the
created entries, the two accumulating namespaces, and the fragment of Python's
format mini-language the bodies use: literal text, `\x7b\x7b`/`\x7d\x7d`
escapes, and replacement fields built from an identifier followed by `[key]`
item accesses and `.attr` attribute accesses (conversions `!r`/`!s` and format
specs `:...` are rejected by the model; `format` of a bare entry object, whose
Python `str` would include a memory address, is likewise rejected).  A missing
keyword, key or attribute is a `KeyError`/`IndexError`/`AttributeError`, which
`format` propagates, aborting the run.
-/

inductive EntryKind
  | milestoneK
  | issueK
deriving DecidableEq

/-- A created `Milestone`/`Issue` object as stored in the context: the fields
`add_issues` sets before inserting it (resolved body, remote number, and for
issues the owning milestone's number). -/
structure EntryObj where
  kind : EntryKind
  title : String
  body : String
  number : Option Int
  milestoneNum : Option Int := none
deriving DecidableEq

/-- A Python value reachable by format-field access in this program. -/
inductive PyVal
  | vnone
  | vint (n : Int)
  | vstr (s : String)
  | ventry (e : EntryObj)
  | vdict (d : List (String × EntryObj))
deriving DecidableEq

/-- The context `{'milestone': ..., 'issue': ...}`; insertion-ordered
association lists model the dicts (paths are unique within a run). -/
structure Ctx where
  milestone : List (String × EntryObj)
  issue : List (String × EntryObj)
deriving DecidableEq

def Ctx.empty : Ctx := ⟨[], []⟩

/-- The namespace dict a base identifier denotes, if any. -/
def ctxNs (ctx : Ctx) (ns : String) : Option (List (String × EntryObj)) :=
  if ns = "milestone" then some ctx.milestone
  else if ns = "issue" then some ctx.issue
  else none

def keyErrorMsg (k : String) : String := "KeyError: " ++ pyReprStr k

/-- Attribute access on an entry object (Python `getattr` as used by format). -/
def getattrEntry (e : EntryObj) (a : String) : Except String PyVal :=
  if a = "title" then .ok (.vstr e.title)
  else if a = "body" then .ok (.vstr e.body)
  else if a = "number" then
    .ok (match e.number with | none => .vnone | some n => .vint n)
  else if a = "milestone" then
    match e.kind with
    | .issueK => .ok (match e.milestoneNum with | none => .vnone | some n => .vint n)
    | .milestoneK => .error ("AttributeError: " ++ a)
  else if a = "state" then
    match e.kind with
    | .milestoneK => .ok (.vstr "open")
    | .issueK => .error ("AttributeError: " ++ a)
  else .error ("AttributeError: " ++ a)

def pyGetattr (v : PyVal) (a : String) : Except String PyVal :=
  match v with
  | .ventry e => getattrEntry e a
  | _ => .error ("AttributeError: " ++ a)

def pyGetitem (v : PyVal) (k : String) : Except String PyVal :=
  match v with
  | .vdict d =>
    match d.lookup k with
    | some e => .ok (.ventry e)
    | none => .error (keyErrorMsg k)
  | _ => .error ("TypeError: not subscriptable")

/-- Split a list at the first occurrence of `stop`, dropping it. -/
def splitAtCharL (stop : Char) : List Char → Option (List Char × List Char)
  | [] => none
  | c :: cs =>
    if c = stop then some ([], cs)
    else (splitAtCharL stop cs).map (fun p => (c :: p.1, p.2))

/-- The leading identifier of a field name: characters up to `.` or `[`. -/
def takeIdent (l : List Char) : List Char × List Char :=
  (l.takeWhile (fun c => !(c = '.' || c = '[')),
   l.dropWhile (fun c => !(c = '.' || c = '[')))

/-- Run the chain of `[key]` / `.attr` accessors of a field name.  `fuel`
bounds the recursion; callers pass one more than the character count, which
each step strictly consumes. -/
def applyAccessors : Nat → PyVal → List Char → Except String PyVal
  | 0, _, _ => .error "internal: accessor fuel exhausted"
  | _ + 1, v, [] => .ok v
  | fuel + 1, v, '.' :: cs =>
    let r := takeIdent cs
    match pyGetattr v r.1.asString with
    | .error e => .error e
    | .ok v2 => applyAccessors fuel v2 r.2
  | fuel + 1, v, '[' :: cs =>
    match splitAtCharL ']' cs with
    | none => .error "ValueError: missing close bracket in format field"
    | some (key, rest) =>
      match pyGetitem v key.asString with
      | .error e => .error e
      | .ok v2 => applyAccessors fuel v2 rest
  | _ + 1, _, _ :: _ => .error "ValueError: unsupported conversion or format spec"

/-- `format(value, '')` for the values reachable here. -/
def formatPyVal : PyVal → Except String String
  | .vnone => .ok "None"
  | .vint n => .ok (toString n)
  | .vstr s => .ok s
  | .ventry _ => .error "unsupported: formatting an entry object"
  | .vdict _ => .error "unsupported: formatting a dict"

/-- Interpret one replacement field (the text between `\x7b` and `\x7d`)
against the context, yielding the substituted text. -/
def interpretField (ctx : Ctx) (f : List Char) : Except String String :=
  let r := takeIdent f
  let base := r.1.asString
  if base.isEmpty || r.1.all Char.isDigit then
    .error "IndexError: no positional arguments"
  else
    match ctxNs ctx base with
    | none => .error (keyErrorMsg base)
    | some d =>
      match applyAccessors (r.2.length + 1) (.vdict d) r.2 with
      | .error e => .error e
      | .ok v => formatPyVal v

/-- The replacement-field step shared by the two scanners: split off the field
text at the closing brace. -/
def fieldSplit (cs : List Char) : Option (List Char × List Char) :=
  splitAtCharL '}' cs

/-- `body.format(**context)`: scan for replacement fields, substituting each.
`fuel` bounds the recursion; each step consumes at least one character, so
callers pass one more than the character count. -/
def resolveF (ctx : Ctx) : Nat → List Char → Except String (List Char)
  | 0, _ => .error "internal: resolver fuel exhausted"
  | fuel + 1, l =>
    match l with
    | [] => .ok []
    | c :: cs =>
      if c = '{' then
        if cs.head? = some '{' then
          match resolveF ctx fuel cs.tail with
          | .error e => .error e
          | .ok out => .ok ('{' :: out)
        else
          match fieldSplit cs with
          | none => .error "ValueError: single open brace encountered in format string"
          | some (f, rest) =>
            match interpretField ctx f with
            | .error e => .error e
            | .ok piece =>
              match resolveF ctx fuel rest with
              | .error e => .error e
              | .ok out => .ok (piece.toList ++ out)
      else if c = '}' then
        if cs.head? = some '}' then
          match resolveF ctx fuel cs.tail with
          | .error e => .error e
          | .ok out => .ok ('}' :: out)
        else .error "ValueError: single close brace encountered in format string"
      else
        match resolveF ctx fuel cs with
        | .error e => .error e
        | .ok out => .ok (c :: out)

def resolveBody (ctx : Ctx) (body : String) : Except String String :=
  match resolveF ctx (body.toList.length + 1) body.toList with
  | .error e => .error e
  | .ok out => .ok out.asString

/-- The `(namespace, key)` pair of a field of the form `milestone[key]...` or
`issue[key]...`, if the field has that form. -/
def extractRef (f : List Char) : Option (String × String) :=
  let r := takeIdent f
  let base := r.1.asString
  if base = "milestone" || base = "issue" then
    match r.2 with
    | c :: restk =>
      if c = '[' then (splitAtCharL ']' restk).map (fun p => (base, p.1.asString))
      else none
    | [] => none
  else none

/-- All `(namespace, key)` references a body's replacement fields make,
collected by the same scan `resolveF` performs. -/
def fieldRefsF : Nat → List Char → List (String × String)
  | 0, _ => []
  | fuel + 1, l =>
    match l with
    | [] => []
    | c :: cs =>
      if c = '{' then
        if cs.head? = some '{' then fieldRefsF fuel cs.tail
        else
          match fieldSplit cs with
          | none => []
          | some (f, rest) =>
            match extractRef f with
            | some r => r :: fieldRefsF fuel rest
            | none => fieldRefsF fuel rest
      else if c = '}' then
        if cs.head? = some '}' then fieldRefsF fuel cs.tail
        else []
      else fieldRefsF fuel cs

def fieldRefs (body : String) : List (String × String) :=
  fieldRefsF (body.toList.length + 1) body.toList

/-- Lookup of a reference in the context. -/
def refLookup (ctx : Ctx) (r : String × String) : Option EntryObj :=
  match ctxNs ctx r.1 with
  | none => none
  | some d => d.lookup r.2

/-! ### Entry creation payloads (`Milestone._create_data`, `Issue._create_data`)

```python
class Issue(_Entry):
    def _create_data(self):
        data = {'title': self.title}
        if self.body: data['body'] = self.body
        if self.milestone: data['milestone'] = self.milestone
        if self.labels: data['labels'] = self.labels
        return data

class Milestone(_Entry):
    def _create_data(self):
        data = {'title': self.title, 'state': self.state}
        if self.body: data['description'] = self.body
        if self.due_on: data['due_on'] = self.due_on.isoformat()
        return data
```
An `Option` field set to `none` models a key omitted from the payload;
Python truthiness (`''`, `0`, `None` are falsy) governs each `if`.
-/

structure MilestoneData where
  title : String
  state : String
  description : Option String
  due_on : Option String
deriving DecidableEq

structure IssueData where
  title : String
  body : Option String
  milestone : Option Int
  labels : Option (List String)
deriving DecidableEq

/-- Payload of a `Milestone` as `add_issues` builds it (`state` defaults to
`'open'`, `due_on` is never set by the orchestrator). -/
def milestoneCreateData (title body : String) : MilestoneData :=
  { title := title
    state := "open"
    description := if body = "" then none else some body
    due_on := none }

/-- Payload of an `Issue` as `add_issues` builds it (`labels`/`assignee` are
never set by the orchestrator; `milestone` is included only when truthy). -/
def issueCreateData (title body : String) (milestoneNum : Option Int) : IssueData :=
  { title := title
    body := if body = "" then none else some body
    milestone :=
      match milestoneNum with
      | none => none
      | some n => if n = 0 then none else some n
    labels := none }

/-- One remote creation request, as observed at the tracker. -/
inductive CreateCall
  | milestoneCall (data : MilestoneData)
  | issueCall (data : IssueData)
deriving DecidableEq

/-- The issue title of a call, when the call is an issue creation. -/
def issueTitleOf : CreateCall → Option String
  | .issueCall d => some d.title
  | .milestoneCall _ => none

def callIsMilestone : CreateCall → Bool
  | .milestoneCall _ => true
  | .issueCall _ => false

def callTitle : CreateCall → String
  | .milestoneCall d => d.title
  | .issueCall d => d.title

/-- An issue-creation call whose payload carries no milestone number. -/
def callNoMilestone : CreateCall → Bool
  | .issueCall d => d.milestone.isNone
  | .milestoneCall _ => false

/-! ### Push orchestrator (`add_issues`)

```python
for openers in walk(template_root):
    milestone_number = None
    if 'README.md' in openers:
        milestone = Milestone()
        opener = openers.pop('README.md')
        with opener() as f: milestone.load(stream=f)
        milestone.body = milestone.body.format(**context)
        milestone.create(...)
        context['milestone'][opener.path] = milestone
        milestone_number = milestone.number
    for filename, opener in sorted(openers.items()):
        if not filename.endswith('.md'): continue
        issue = Issue(milestone=milestone_number)
        with opener() as f: issue.load(stream=f)
        issue.body = issue.body.format(**context)
        issue.create(...)
        context['issue'][opener.path] = issue
```
A directory group is the `openers` dict: filename to (relative path, file
contents), insertion-ordered with unique filenames.  Remote number assignment
is an oracle `numbers : Nat → Int` consumed left to right; the emitted
creation payloads are collected in a trace.
-/

structure TFile where
  path : String
  content : String
deriving DecidableEq

abbrev Group := List (String × TFile)

/-- Stable insertion into a list sorted by filename (Python `sorted`). -/
def insertByName (x : String × TFile) : Group → Group
  | [] => [x]
  | y :: ys =>
    if lexLtB y.1.toList x.1.toList then y :: insertByName x ys
    else x :: y :: ys

/-- `sorted(openers.items())`: sort by filename, code-point lexicographic. -/
def sortByName (l : Group) : Group := l.foldr insertByName []

/-- The issue loop of `add_issues` over an already-sorted file list, threading
the context, the number oracle index, and the group's milestone number. -/
def processIssues (numbers : Nat → Int) (ctx : Ctx) (idx : Nat)
    (msNum : Option Int) : List (String × TFile) →
    Except String (Ctx × Nat × List CreateCall)
  | [] => .ok (ctx, idx, [])
  | (filename, f) :: rest =>
    if pyEndsWith filename ".md" then
      match loadTemplate f.content with
      | .error e => .error e
      | .ok t =>
        match resolveBody ctx t.body with
        | .error e => .error e
        | .ok resolved =>
          let n := numbers idx
          let e : EntryObj :=
            { kind := .issueK, title := t.title, body := resolved,
              number := some n, milestoneNum := msNum }
          match processIssues numbers { ctx with issue := ctx.issue ++ [(f.path, e)] }
              (idx + 1) msNum rest with
          | .error er => .error er
          | .ok (ctx2, idx2, calls) =>
            .ok (ctx2, idx2, .issueCall (issueCreateData t.title resolved msNum) :: calls)
    else processIssues numbers ctx idx msNum rest

/-- One directory group of `add_issues`: the optional `README.md` milestone,
then the sorted issue loop. -/
def processGroup (numbers : Nat → Int) (ctx : Ctx) (idx : Nat) (group : Group) :
    Except String (Ctx × Nat × List CreateCall) :=
  match group.lookup "README.md" with
  | some f =>
    match loadTemplate f.content with
    | .error e => .error e
    | .ok t =>
      match resolveBody ctx t.body with
      | .error e => .error e
      | .ok resolved =>
        let n := numbers idx
        let e : EntryObj :=
          { kind := .milestoneK, title := t.title, body := resolved, number := some n }
        let ctx1 : Ctx := { ctx with milestone := ctx.milestone ++ [(f.path, e)] }
        match processIssues numbers ctx1 (idx + 1) (some n)
            (sortByName (group.filter (fun p => p.1 ≠ "README.md"))) with
        | .error er => .error er
        | .ok (ctx2, idx2, calls) =>
          .ok (ctx2, idx2, .milestoneCall (milestoneCreateData t.title resolved) :: calls)
  | none => processIssues numbers ctx idx none (sortByName group)

/-- `add_issues` over the walker's group sequence. -/
def addIssues (numbers : Nat → Int) : List Group → Ctx → Nat →
    Except String (Ctx × Nat × List CreateCall)
  | [], ctx, idx => .ok (ctx, idx, [])
  | g :: gs, ctx, idx =>
    match processGroup numbers ctx idx g with
    | .error e => .error e
    | .ok (ctx1, idx1, calls1) =>
      match addIssues numbers gs ctx1 idx1 with
      | .error e => .error e
      | .ok (ctx2, idx2, calls2) => .ok (ctx2, idx2, calls1 ++ calls2)

/-- The markdown files of a group other than `README.md`, in the order the
issue loop visits them. -/
def mdFilesOf (group : Group) : List (String × TFile) :=
  (sortByName (group.filter (fun p => p.1 ≠ "README.md"))).filter
    (fun p => pyEndsWith p.1 ".md")

/-! ### Source walker (`walk`), remote branch

```python
if '://' in template_root:
    base, extension = os.path.splitext(template_root)
    if extension == '.gz':
        extension = os.path.splitext(base)[1] + extension
    if extension not in ['.tar.gz', '.zip']:
        raise NotImplementedError('unrecognized format ...')
    response = urlopen(template_root)
    ...
```
`posixpath.splitext` splits at the last dot that follows the last `/` and is
preceded (within the final component) by at least one non-dot character, so a
component made of leading dots has no extension.
-/

/-- Scan a reversed character list for the reversed extension: the characters
up to the first `.`, failing if a `/` or the end of the list comes first. -/
def revSpanToDot : List Char → Option (List Char × List Char)
  | [] => none
  | c :: cs =>
    if c = '/' then none
    else if c = '.' then some ([], cs)
    else (revSpanToDot cs).map (fun p => (c :: p.1, p.2))

/-- `os.path.splitext` (POSIX flavor): `(root, extension)`. -/
def splitextL (l : List Char) : List Char × List Char :=
  match revSpanToDot l.reverse with
  | none => (l, [])
  | some (extRev, restRev) =>
    if (restRev.takeWhile (fun c => c ≠ '/')).any (fun c => c ≠ '.') then
      (restRev.reverse, '.' :: extRev.reverse)
    else (l, [])

def splitextStr (s : String) : String × String :=
  let p := splitextL s.toList
  (p.1.asString, p.2.asString)

/-- The extension `walk` computes for a remote locator, including the chained
`.gz` inspection that detects `.tar.gz`. -/
def chainedExt (template_root : String) : String :=
  let p := splitextStr template_root
  if p.2 = ".gz" then (splitextStr p.1).2 ++ p.2 else p.2

/-- The format check `walk` performs on a remote locator before fetching it. -/
def walkCheckRemote (template_root : String) : Except String String :=
  let ext := chainedExt template_root
  if ext = ".tar.gz" || ext = ".zip" then .ok ext
  else .error ("unrecognized format for network-based template: " ++ ext)

/-- The remote prelude of `walk`: the format check, then (only if it passed)
the fetch of the archive bytes from the network. -/
def walkRemotePrelude (net : String → List Nat) (template_root : String) :
    Except String (String × List Nat) :=
  match walkCheckRemote template_root with
  | .error e => .error e
  | .ok ext => .ok (ext, net template_root)

/-- `name.rsplit('/', 1)` followed by unpacking into `(directory, filename)`;
a name with no `/` makes the unpacking raise `ValueError`. -/
def splitDirFile (name : String) : Except String (String × String) :=
  match splitAtCharL '/' name.toList.reverse with
  | none => .error "ValueError: not enough values to unpack"
  | some (fnRev, dirRev) => .ok (dirRev.reverse.asString, fnRev.reverse.asString)

/-- A tar archive member as `walk` sees it. -/
structure TarMember where
  name : String
  isFile : Bool
deriving DecidableEq

/-- Insert `(filename, path)` into the directory-indexed grouping
(`directories[directory][filename] = opener`), overwriting an existing
filename entry. -/
def insertGrouped (dirs : List (String × List (String × String)))
    (d fn path : String) : List (String × List (String × String)) :=
  match dirs with
  | [] => [(d, [(fn, path)])]
  | (d0, files) :: rest =>
    if d0 = d then
      (d0, (files.filter (fun p => p.1 ≠ fn)) ++ [(fn, path)]) :: rest
    else (d0, files) :: insertGrouped rest d fn path

/-- The tar branch of `walk`: index the file members by directory, failing on
a member whose path has no `/`. -/
def walkTarGroups : List TarMember → List (String × List (String × String)) →
    Except String (List (String × List (String × String)))
  | [], dirs => .ok dirs
  | m :: rest, dirs =>
    if !m.isFile then walkTarGroups rest dirs
    else
      match splitDirFile m.name with
      | .error e => .error e
      | .ok (d, fn) => walkTarGroups rest (insertGrouped dirs d fn m.name)

/-- The zip branch of `walk`: index the names by directory, skipping directory
entries (trailing `/`), failing on a name with no `/`. -/
def walkZipGroups : List String → List (String × List (String × String)) →
    Except String (List (String × List (String × String)))
  | [], dirs => .ok dirs
  | name :: rest, dirs =>
    if pyEndsWith name "/" then walkZipGroups rest dirs
    else
      match splitDirFile name with
      | .error e => .error e
      | .ok (d, fn) => walkZipGroups rest (insertGrouped dirs d fn name)

/-! ### Creation-response handling (`_Entry.create`)

```python
response = urlopen(request)
info = response.info()
if info.type != 'application/json':
    raise ValueError('invalid response type: {}'.format(info.type))
payload_bytes = response.read()
charset = info.getparam('charset')
payload_json = payload_bytes.decode(charset)
payload = json.loads(payload_json)
self.number = json['number']
```
`info.type`/`info.getparam` are the Python 2 `mimetools.Message` accessors
(the media type token and the value of the `charset` parameter, `None` when
absent).  `bytes.decode(None)` under Python 2 decodes with the interpreter's
default codec, ASCII — there is no UTF-8 fallback in the code.  `json.loads`
is modelled for the fragment these responses need: a flat object of string
keys and integer / string / boolean / null values, escape-free strings, and
JSON whitespace.
-/

structure HttpResponse where
  contentType : String
  charsetParam : Option String
  body : List Nat
deriving DecidableEq

/-- ASCII decoding: every byte below 128, else a `UnicodeDecodeError`. -/
def asciiDecode : List Nat → Except String (List Char)
  | [] => .ok []
  | b :: bs =>
    if b < 128 then
      match asciiDecode bs with
      | .error e => .error e
      | .ok cs => .ok (Char.ofNat b :: cs)
    else .error "UnicodeDecodeError: ascii codec cannot decode byte"

def isContByte (b : Nat) : Bool := 0x80 ≤ b && b < 0xC0

/-- UTF-8 decoding with the standard validity checks. -/
def utf8DecodeL : List Nat → Except String (List Char)
  | [] => .ok []
  | b :: bs =>
    if b < 0x80 then
      match utf8DecodeL bs with
      | .error e => .error e
      | .ok cs => .ok (Char.ofNat b :: cs)
    else if b < 0xC2 then .error "UnicodeDecodeError: invalid start byte"
    else if b < 0xE0 then
      match bs with
      | b2 :: bs2 =>
        if isContByte b2 then
          match utf8DecodeL bs2 with
          | .error e => .error e
          | .ok cs => .ok (Char.ofNat ((b - 0xC0) * 64 + (b2 - 0x80)) :: cs)
        else .error "UnicodeDecodeError: invalid continuation byte"
      | [] => .error "UnicodeDecodeError: unexpected end of data"
    else if b < 0xF0 then
      match bs with
      | b2 :: b3 :: bs3 =>
        if isContByte b2 && isContByte b3 &&
            !(b = 0xE0 && b2 < 0xA0) && !(b = 0xED && 0xA0 ≤ b2) then
          match utf8DecodeL bs3 with
          | .error e => .error e
          | .ok cs =>
            .ok (Char.ofNat (((b - 0xE0) * 64 + (b2 - 0x80)) * 64 + (b3 - 0x80)) :: cs)
        else .error "UnicodeDecodeError: invalid continuation byte"
      | _ => .error "UnicodeDecodeError: unexpected end of data"
    else if b < 0xF5 then
      match bs with
      | b2 :: b3 :: b4 :: bs4 =>
        if isContByte b2 && isContByte b3 && isContByte b4 &&
            !(b = 0xF0 && b2 < 0x90) && !(b = 0xF4 && 0x90 ≤ b2) then
          match utf8DecodeL bs4 with
          | .error e => .error e
          | .ok cs =>
            .ok (Char.ofNat ((((b - 0xF0) * 64 + (b2 - 0x80)) * 64 + (b3 - 0x80)) * 64
              + (b4 - 0x80)) :: cs)
        else .error "UnicodeDecodeError: invalid continuation byte"
      | _ => .error "UnicodeDecodeError: unexpected end of data"
    else .error "UnicodeDecodeError: invalid start byte"

def lowerStr (s : String) : String := (s.toList.map Char.toLower).asString

/-- `payload_bytes.decode(charset)`: the declared codec, or with no declared
charset the Python 2 default codec, ASCII. -/
def pyDecode (charset : Option String) (bytes : List Nat) : Except String String :=
  match charset with
  | none =>
    match asciiDecode bytes with
    | .error e => .error e
    | .ok cs => .ok cs.asString
  | some cs =>
    let n := lowerStr cs
    if n = "utf-8" || n = "utf8" then
      match utf8DecodeL bytes with
      | .error e => .error e
      | .ok l => .ok l.asString
    else if n = "ascii" || n = "us-ascii" then
      match asciiDecode bytes with
      | .error e => .error e
      | .ok l => .ok l.asString
    else .error ("LookupError: unknown encoding: " ++ cs)

/-- A primitive JSON value in a creation response. -/
inductive JPrim
  | jnull
  | jbool (b : Bool)
  | jint (n : Int)
  | jstr (s : String)
deriving DecidableEq

def jsonWs (c : Char) : Bool := c = ' ' || c = '\t' || c = '\n' || c = '\r'

/-- Parse a JSON string body (after the opening quote), escape-free. -/
def jparseStr : List Char → Except String (String × List Char)
  | [] => .error "json: unterminated string"
  | c :: cs =>
    if c = '"' then .ok ("", cs)
    else if c = '\\' then .error "json: escapes unsupported in model"
    else
      match jparseStr cs with
      | .error e => .error e
      | .ok (s, rest) => .ok (String.singleton c ++ s, rest)

/-- Parse a primitive JSON value. -/
def jparsePrim (l : List Char) : Except String (JPrim × List Char) :=
  match l.dropWhile jsonWs with
  | [] => .error "json: expecting value"
  | c :: cs =>
    if c = '"' then
      match jparseStr cs with
      | .error e => .error e
      | .ok (s, rest) => .ok (.jstr s, rest)
    else if c = 'n' then
      match cs with
      | 'u' :: 'l' :: 'l' :: rest => .ok (.jnull, rest)
      | _ => .error "json: expecting value"
    else if c = 't' then
      match cs with
      | 'r' :: 'u' :: 'e' :: rest => .ok (.jbool true, rest)
      | _ => .error "json: expecting value"
    else if c = 'f' then
      match cs with
      | 'a' :: 'l' :: 's' :: 'e' :: rest => .ok (.jbool false, rest)
      | _ => .error "json: expecting value"
    else if c = '-' then
      match cs.takeWhile Char.isDigit with
      | [] => .error "json: expecting value"
      | ds => .ok (.jint (-(Int.ofNat (digitsToNat ds))), cs.dropWhile Char.isDigit)
    else if c.isDigit then
      .ok (.jint (Int.ofNat (digitsToNat ((c :: cs).takeWhile Char.isDigit))),
        (c :: cs).dropWhile Char.isDigit)
    else .error "json: expecting value"
where
  digitsToNat (ds : List Char) : Nat :=
    ds.foldl (fun acc c => acc * 10 + (c.toNat - '0'.toNat)) 0

/-- Parse the members of a flat JSON object, after the opening brace.  `fuel`
bounds the loop; callers pass one more than the character count, and every
iteration consumes at least one character. -/
def jparseMembers : Nat → List Char → Except String (List (String × JPrim) × List Char)
  | 0, _ => .error "internal: json fuel exhausted"
  | fuel + 1, l =>
    match l.dropWhile jsonWs with
    | [] => .error "json: unterminated object"
    | c :: cs =>
      if c = '"' then
        match jparseStr cs with
        | .error e => .error e
        | .ok (key, rest) =>
          match rest.dropWhile jsonWs with
          | ':' :: rest2 =>
            match jparsePrim rest2 with
            | .error e => .error e
            | .ok (v, rest3) =>
              match rest3.dropWhile jsonWs with
              | ',' :: rest4 =>
                match jparseMembers fuel rest4 with
                | .error e => .error e
                | .ok (fields, rest5) => .ok ((key, v) :: fields, rest5)
              | '}' :: rest4 => .ok ([(key, v)], rest4)
              | _ => .error "json: expecting comma delimiter"
          | _ => .error "json: expecting colon delimiter"
      else .error "json: expecting property name"

/-- `json.loads` for a flat object of primitive values. -/
def jsonLoadsFlat (s : String) : Except String (List (String × JPrim)) :=
  match s.toList.dropWhile jsonWs with
  | '{' :: cs =>
    match cs.dropWhile jsonWs with
    | '}' :: rest =>
      if (rest.dropWhile jsonWs).isEmpty then .ok []
      else .error "json: extra data"
    | _ =>
      match jparseMembers (cs.length + 1) cs with
      | .error e => .error e
      | .ok (fields, rest) =>
        if (rest.dropWhile jsonWs).isEmpty then .ok fields
        else .error "json: extra data"
  | _ => .error "json: expecting object"

/-- The response handling of `_Entry.create`: require a JSON content type
before reading the body, decode with the declared charset, parse the JSON,
and read the created entry's `number` field. -/
def handleCreateResponse (r : HttpResponse) : Except String JPrim :=
  if r.contentType ≠ "application/json" then
    .error ("invalid response type: " ++ r.contentType)
  else
    match pyDecode r.charsetParam r.body with
    | .error e => .error e
    | .ok payload =>
      match jsonLoadsFlat payload with
      | .error e => .error e
      | .ok fields =>
        match fields.lookup "number" with
        | some v => .ok v
        | none => .error (keyErrorMsg "number")

/-! ### Spec-worded comparison definitions

Two claims describe a behavior in words that differ from the code; the
following definitions follow the claims' words so the two can be compared.
-/

/-- Remove one trailing newline, if present. -/
def dropTrailingNewline (l : List Char) : List Char :=
  match l.reverse with
  | '\n' :: rest => rest.reverse
  | _ => l

/-- The title transformation as the claim words it: first strip the trailing
newline, then strip any leading and trailing `#` characters, then strip
surrounding whitespace — so leading whitespace before a `#` marker survives
the `#`-stripping step.  For comparison with the source's
`readline().strip().strip('#').strip()`. -/
def claimTitleTransform (line : List Char) : List Char :=
  pyStripL (pyStripHashL (dropTrailingNewline line))

/-- The response decoding as the claim words it: the declared charset,
defaulting to UTF-8 when no charset is specified.  For comparison with the
source's `payload_bytes.decode(charset)`, which applies no such default. -/
def claimDecode (charset : Option String) (bytes : List Nat) : Except String String :=
  pyDecode (some (charset.getD "UTF-8")) bytes

/-- The response handling as the claim words it: like `handleCreateResponse`
but decoding with `claimDecode` (UTF-8 default). -/
def claimHandleCreateResponse (r : HttpResponse) : Except String JPrim :=
  if r.contentType ≠ "application/json" then
    .error ("invalid response type: " ++ r.contentType)
  else
    match claimDecode r.charsetParam r.body with
    | .error e => .error e
    | .ok payload =>
      match jsonLoadsFlat payload with
      | .error e => .error e
      | .ok fields =>
        match fields.lookup "number" with
        | some v => .ok v
        | none => .error (keyErrorMsg "number")

/-! ## Parser lemmas -/

theorem loadTemplate_eq (input : String) :
    loadTemplate input =
      if (secondStripped input).isEmpty then
        .ok ⟨(pyTitleL input.toList).asString,
             (readLineL (readLineL input.toList).2).2.asString⟩
      else .error (nonBlankMsg (secondStripped input).asString) := rfl

theorem loadTemplate_ok_title (s : String) (t : ParsedTemplate)
    (h : loadTemplate s = .ok t) : t.title = (pyTitleL s.toList).asString := by
  rw [loadTemplate_eq] at h
  split at h
  · cases h
    rfl
  · cases h

theorem readLineL_no_newline (l : List Char) (h : '\n' ∉ l) : readLineL l = (l, []) := by
  induction l with
  | nil => rfl
  | cons c cs ih =>
    have hc : ¬(c = '\n') := fun hh => h (by simp [hh])
    have hcs : '\n' ∉ cs := fun hh => h (List.mem_cons_of_mem c hh)
    simp [readLineL, hc, ih hcs]

theorem readLineL_append (l1 s : List Char) (h : '\n' ∉ l1) :
    readLineL (l1 ++ '\n' :: s) = (l1 ++ ['\n'], s) := by
  induction l1 with
  | nil => simp [readLineL]
  | cons c cs ih =>
    have hc : ¬(c = '\n') := fun hh => h (by simp [hh])
    have hcs : '\n' ∉ cs := fun hh => h (List.mem_cons_of_mem c hh)
    simp [readLineL, hc, ih hcs]

theorem forall_dropWhile_iff (p : Char → Bool) (l : List Char) :
    (∀ x ∈ l.dropWhile p, p x) ↔ (∀ x ∈ l, p x) := by
  induction l with
  | nil => simp
  | cons c cs ih =>
    by_cases hc : p c = true
    · simp [List.dropWhile, hc, ih]
    · simp [List.dropWhile, hc]

theorem pyStripL_nil_iff (l : List Char) :
    pyStripL l = [] ↔ ∀ c ∈ l, pyIsSpace c = true := by
  unfold pyStripL stripEnds
  rw [List.reverse_eq_nil_iff, List.dropWhile_eq_nil_iff]
  simp only [List.mem_reverse]
  exact forall_dropWhile_iff pyIsSpace l

theorem pyStripL_append_newline (l : List Char) (h : pyStripL l = []) :
    pyStripL (l ++ ['\n']) = [] := by
  rw [pyStripL_nil_iff] at h ⊢
  intro c hc
  rcases List.mem_append.mp hc with h1 | h2
  · exact h c h1
  · simp only [List.mem_singleton] at h2
    subst h2
    decide

/-! ## Claim C2 -/

/-- C2: parsing fails, with an error naming the (stripped) offending line,
exactly when the second line of the stream is non-blank after stripping;
a blank-stripping second line always lets parsing succeed. -/
theorem second_line_blank_check (input : String) :
    (secondStripped input ≠ [] →
      loadTemplate input = .error (nonBlankMsg (secondStripped input).asString)) ∧
    (secondStripped input = [] → exOk (loadTemplate input) = true) := by
  constructor
  · intro h
    rw [loadTemplate_eq]
    have hne : (secondStripped input).isEmpty = false := by
      cases hs : secondStripped input
      · exact absurd hs h
      · rfl
    simp [hne]
  · intro h
    rw [loadTemplate_eq]
    simp [h, exOk]

/-- Witness for C2 on the spec's example `"Title\nnot blank\nBody"` and on a
well-formed template. -/
theorem second_line_blank_check_witness :
    loadTemplate "Title\nnot blank\nBody" =
      .error (nonBlankMsg (secondStripped "Title\nnot blank\nBody").asString) ∧
    exOk (loadTemplate "Title\n\nBody") = true :=
  ⟨(second_line_blank_check "Title\nnot blank\nBody").1 (by decide),
   (second_line_blank_check "Title\n\nBody").2 (by decide)⟩

/-! ## Claim C4 -/

/-- C4: with a context whose milestone namespace maps `joel/README.md` to a
milestone numbered 3, resolving `"See also #\x7bmilestone[joel/README.md].number\x7d."`
yields exactly `"See also #3."`. -/
theorem milestone_number_substitution :
    resolveBody
      ⟨[("joel/README.md",
         { kind := .milestoneK, title := "joel", body := "", number := some 3 })], []⟩
      "See also #\x7bmilestone[joel/README.md].number\x7d." = .ok "See also #3." := by
  decide

/-! ## Claim C5 (corrected) -/

/-- Counterexample to C5 as stated: on first line `" # Title"` the code's
title is `"Title"` (it strips surrounding whitespace before the `#`-stripping
step), while the claim's transformation order (newline, then `#`, then
whitespace) keeps the `#` and yields `"# Title"`. -/
theorem title_strip_order_cex :
    loadTemplate " # Title\n\nBody" = .ok ⟨"Title", "Body"⟩ ∧
    (claimTitleTransform (readLineL " # Title\n\nBody".toList).1).asString = "# Title" ∧
    ("Title" : String) ≠ "# Title" := by
  refine ⟨by decide, by decide, by decide⟩

/-- C5 amended: the parsed title equals the first line transformed by
stripping surrounding whitespace (which removes the trailing newline), then
stripping any leading and trailing `#` characters, then stripping surrounding
whitespace again — so leading whitespace before a `#` marker is removed
before the `#`-stripping step. -/
theorem title_strip_order_amended (input : String) (t : ParsedTemplate)
    (h : loadTemplate input = .ok t) :
    t.title = (pyStripL (pyStripHashL (pyStripL (readLineL input.toList).1))).asString :=
  loadTemplate_ok_title input t h

/-- Witness for the amended C5 at `"# T\n\nB"`. -/
theorem title_strip_order_amended_witness :
    ("T" : String) =
      (pyStripL (pyStripHashL (pyStripL (readLineL "# T\n\nB".toList).1))).asString :=
  title_strip_order_amended "# T\n\nB" ⟨"T", "B"⟩ (by decide)

/-! ## Claim C6 -/

/-- C6: for a valid template (blank second line) the parsed body is
byte-identical to everything after the second line's newline; when the stream
ends after line two the body is empty. -/
theorem body_verbatim (l1 l2 rest : List Char)
    (h1 : '\n' ∉ l1) (h2 : '\n' ∉ l2) (hb : pyStripL l2 = []) :
    loadTemplateL (l1 ++ '\n' :: (l2 ++ '\n' :: rest)) =
      .ok ⟨(pyStripL (pyStripHashL (pyStripL (l1 ++ ['\n'])))).asString, rest.asString⟩ ∧
    loadTemplateL (l1 ++ '\n' :: l2) =
      .ok ⟨(pyStripL (pyStripHashL (pyStripL (l1 ++ ['\n'])))).asString,
           ([] : List Char).asString⟩ := by
  have e1 := readLineL_append l1 (l2 ++ '\n' :: rest) h1
  have e1b := readLineL_append l1 l2 h1
  have e2 := readLineL_append l2 rest h2
  have e2b := readLineL_no_newline l2 h2
  have e3 : pyStripL (l2 ++ ['\n']) = [] := pyStripL_append_newline l2 hb
  constructor
  · simp only [loadTemplateL, e1, e2, e3, List.isEmpty_nil, if_true]
  · simp only [loadTemplateL, e1b, e2b, hb, List.isEmpty_nil, if_true]

/-- Witness for C6 at a concrete template. -/
theorem body_verbatim_witness :
    loadTemplateL ("# T".toList ++ '\n' :: (" ".toList ++ '\n' :: "body\nmore\n".toList)) =
      .ok ⟨(pyStripL (pyStripHashL (pyStripL ("# T".toList ++ ['\n'])))).asString,
           "body\nmore\n".toList.asString⟩ ∧
    loadTemplateL ("# T".toList ++ '\n' :: " ".toList) =
      .ok ⟨(pyStripL (pyStripHashL (pyStripL ("# T".toList ++ ['\n'])))).asString,
           ([] : List Char).asString⟩ :=
  body_verbatim "# T".toList " ".toList "body\nmore\n".toList
    (by decide) (by decide) (by decide)

/-! ## Orchestrator lemmas -/

theorem processIssues_calls (numbers : Nat → Int) (msNum : Option Int)
    (fs : List (String × TFile)) :
    ∀ (ctx : Ctx) (idx : Nat) (res : Ctx × Nat × List CreateCall),
    processIssues numbers ctx idx msNum fs = .ok res →
    res.2.2.map issueTitleOf =
      (fs.filter (fun p => pyEndsWith p.1 ".md")).map
        (fun p => some (pyTitleL p.2.content.toList).asString) := by
  induction fs with
  | nil =>
    intro ctx idx res h
    simp only [processIssues] at h
    cases h
    rfl
  | cons hd tl ih =>
    intro ctx idx res h
    obtain ⟨filename, f⟩ := hd
    by_cases hmd : pyEndsWith filename ".md" = true
    · simp only [processIssues] at h
      rw [if_pos hmd] at h
      split at h
      · cases h
      rename_i t hload
      split at h
      · cases h
      rename_i resolved hresv
      split at h
      · cases h
      rename_i ctx2 idx2 calls hrec
      cases h
      simp only [List.map_cons, List.filter_cons, hmd, if_true, issueTitleOf,
        issueCreateData]
      rw [loadTemplate_ok_title f.content t hload]
      exact congrArg (List.cons _) (ih _ _ _ hrec)
    · simp only [processIssues] at h
      rw [if_neg hmd] at h
      simp only [List.filter_cons]
      rw [if_neg hmd]
      exact ih _ _ _ h

theorem processIssues_no_milestone (numbers : Nat → Int)
    (fs : List (String × TFile)) :
    ∀ (ctx : Ctx) (idx : Nat) (res : Ctx × Nat × List CreateCall),
    processIssues numbers ctx idx none fs = .ok res →
    res.2.2.all callNoMilestone = true := by
  induction fs with
  | nil =>
    intro ctx idx res h
    simp only [processIssues] at h
    cases h
    rfl
  | cons hd tl ih =>
    intro ctx idx res h
    obtain ⟨filename, f⟩ := hd
    by_cases hmd : pyEndsWith filename ".md" = true
    · simp only [processIssues] at h
      rw [if_pos hmd] at h
      split at h
      · cases h
      rename_i t hload
      split at h
      · cases h
      rename_i resolved hresv
      split at h
      · cases h
      rename_i ctx2 idx2 calls hrec
      cases h
      simp only [List.all_cons, Bool.and_eq_true]
      exact ⟨rfl, ih _ _ _ hrec⟩
    · simp only [processIssues] at h
      rw [if_neg hmd] at h
      exact ih _ _ _ h

/-! ## Claim C1 -/

/-- C1: in a group containing `README.md`, the first creation call is the
README's milestone, and the remaining calls are exactly one issue per other
`.md` file, in lexicographic filename order (titles identify the files); files
not ending in `.md` produce no call. -/
theorem milestone_first_then_sorted_issues (numbers : Nat → Int) (ctx : Ctx)
    (idx : Nat) (group : Group) (f : TFile) (res : Ctx × Nat × List CreateCall)
    (hr : group.lookup "README.md" = some f)
    (hok : processGroup numbers ctx idx group = .ok res) :
    res.2.2.head?.map callIsMilestone = some true ∧
    res.2.2.head?.map callTitle = some (pyTitleL f.content.toList).asString ∧
    res.2.2.tail.map issueTitleOf =
      (mdFilesOf group).map (fun p => some (pyTitleL p.2.content.toList).asString) := by
  unfold processGroup at hok
  split at hok
  · rename_i f' hlook
    rw [hr] at hlook
    cases hlook
    split at hok
    · cases hok
    rename_i t hload
    split at hok
    · cases hok
    rename_i resolved hresv
    dsimp only at hok
    split at hok
    · cases hok
    rename_i ctx2 idx2 calls hpi
    cases hok
    refine ⟨rfl, ?_, ?_⟩
    · show some (milestoneCreateData t.title resolved).title = _
      simp only [milestoneCreateData]
      rw [loadTemplate_ok_title _ t hload]
    · exact processIssues_calls numbers _ _ _ _ _ hpi
  · rename_i hnone
    rw [hr] at hnone
    cases hnone

/-- Witness for C1: a group with `README.md`, `b.md`, `a.md` and `notes.txt`
yields the milestone first, then issues for `a.md` and `b.md` in that order,
and no call for `notes.txt`. -/
theorem milestone_first_then_sorted_issues_witness :
    ([CreateCall.milestoneCall ⟨"M1", "open", some "mbody\n", none⟩,
      CreateCall.issueCall ⟨"A", some "body a\n", some 1, none⟩,
      CreateCall.issueCall ⟨"B", some "body b\n", some 1, none⟩] : List CreateCall).head?.map
        callIsMilestone = some true ∧
    ([CreateCall.milestoneCall ⟨"M1", "open", some "mbody\n", none⟩,
      CreateCall.issueCall ⟨"A", some "body a\n", some 1, none⟩,
      CreateCall.issueCall ⟨"B", some "body b\n", some 1, none⟩] : List CreateCall).head?.map
        callTitle = some (pyTitleL "# M1\n\nmbody\n".toList).asString ∧
    ([CreateCall.milestoneCall ⟨"M1", "open", some "mbody\n", none⟩,
      CreateCall.issueCall ⟨"A", some "body a\n", some 1, none⟩,
      CreateCall.issueCall ⟨"B", some "body b\n", some 1, none⟩] : List CreateCall).tail.map
        issueTitleOf =
      (mdFilesOf [("notes.txt", ⟨"m1/notes.txt", "stuff\n"⟩),
                  ("README.md", ⟨"m1/README.md", "# M1\n\nmbody\n"⟩),
                  ("b.md", ⟨"m1/b.md", "# B\n\nbody b\n"⟩),
                  ("a.md", ⟨"m1/a.md", "# A\n\nbody a\n"⟩)]).map
        (fun p => some (pyTitleL p.2.content.toList).asString) :=
  milestone_first_then_sorted_issues (fun i => (i : Int) + 1) Ctx.empty 0
    [("notes.txt", ⟨"m1/notes.txt", "stuff\n"⟩),
     ("README.md", ⟨"m1/README.md", "# M1\n\nmbody\n"⟩),
     ("b.md", ⟨"m1/b.md", "# B\n\nbody b\n"⟩),
     ("a.md", ⟨"m1/a.md", "# A\n\nbody a\n"⟩)]
    ⟨"m1/README.md", "# M1\n\nmbody\n"⟩
    (⟨[("m1/README.md", ⟨.milestoneK, "M1", "mbody\n", some 1, none⟩)],
      [("m1/a.md", ⟨.issueK, "A", "body a\n", some 2, some 1⟩),
       ("m1/b.md", ⟨.issueK, "B", "body b\n", some 3, some 1⟩)]⟩, 3,
     [CreateCall.milestoneCall ⟨"M1", "open", some "mbody\n", none⟩,
      CreateCall.issueCall ⟨"A", some "body a\n", some 1, none⟩,
      CreateCall.issueCall ⟨"B", some "body b\n", some 1, none⟩])
    (by decide) (by decide)

/-! ## Claim C7 -/

/-- C7: a group with no `README.md` creates no milestone, and every issue
created from it carries no milestone number in its payload. -/
theorem no_readme_no_milestone (numbers : Nat → Int) (ctx : Ctx) (idx : Nat)
    (group : Group) (res : Ctx × Nat × List CreateCall)
    (hr : group.lookup "README.md" = none)
    (hok : processGroup numbers ctx idx group = .ok res) :
    res.2.2.all callNoMilestone = true := by
  unfold processGroup at hok
  rw [hr] at hok
  exact processIssues_no_milestone numbers _ _ _ _ hok

/-- Witness for C7 on a README-less group. -/
theorem no_readme_no_milestone_witness :
    ([CreateCall.issueCall ⟨"A", some "body a\n", none, none⟩,
      CreateCall.issueCall ⟨"B", none, none, none⟩] : List CreateCall).all
        callNoMilestone = true :=
  no_readme_no_milestone (fun i => (i : Int) + 1) Ctx.empty 0
    [("b.md", ⟨"m2/b.md", "# B\n"⟩), ("notes.txt", ⟨"m2/notes.txt", "x"⟩),
     ("a.md", ⟨"m2/a.md", "# A\n\nbody a\n"⟩)]
    (⟨[], [("m2/a.md", ⟨.issueK, "A", "body a\n", some 1, none⟩),
           ("m2/b.md", ⟨.issueK, "B", "", some 2, none⟩)]⟩, 2,
     [CreateCall.issueCall ⟨"A", some "body a\n", none, none⟩,
      CreateCall.issueCall ⟨"B", none, none, none⟩])
    (by decide) (by decide)

/-! ## Walker lemmas -/

theorem splitAtCharL_eq_none_iff (stop : Char) (l : List Char) :
    splitAtCharL stop l = none ↔ stop ∉ l := by
  induction l with
  | nil => simp [splitAtCharL]
  | cons c cs ih =>
    by_cases hc : c = stop
    · subst hc
      simp [splitAtCharL]
    · have hc2 : ¬(stop = c) := fun hh => hc hh.symm
      simp [splitAtCharL, hc, hc2, Option.map_eq_none', ih]

theorem splitDirFile_no_slash (name : String) (h : '/' ∉ name.toList) :
    splitDirFile name = .error "ValueError: not enough values to unpack" := by
  unfold splitDirFile
  have : splitAtCharL '/' name.toList.reverse = none := by
    rw [splitAtCharL_eq_none_iff]
    simpa using h
  rw [this]

theorem splitDirFile_ok_mem (name : String) (p : String × String)
    (h : splitDirFile name = .ok p) : '/' ∈ name.toList := by
  unfold splitDirFile at h
  cases hs : splitAtCharL '/' name.toList.reverse
  · rw [hs] at h
    cases h
  · have : ¬ splitAtCharL '/' name.toList.reverse = none := by
      rw [hs]
      simp
    rw [splitAtCharL_eq_none_iff] at this
    push_neg at this
    simpa using this

theorem walkTarGroups_ok_mem (members : List TarMember) :
    ∀ (dirs gs : List (String × List (String × String))),
    walkTarGroups members dirs = .ok gs →
    ∀ m ∈ members, m.isFile = true → '/' ∈ m.name.toList := by
  induction members with
  | nil => simp
  | cons m rest ih =>
    intro dirs gs h m2 hm2 hfile
    unfold walkTarGroups at h
    rcases List.mem_cons.mp hm2 with h1 | h2
    · subst h1
      rw [hfile] at h
      simp only [Bool.not_true, Bool.false_eq_true, if_false] at h
      cases hs : splitDirFile m2.name
      · rw [hs] at h
        cases h
      · exact splitDirFile_ok_mem m2.name _ hs
    · by_cases hf : m.isFile = true
      · rw [hf] at h
        simp only [Bool.not_true, Bool.false_eq_true, if_false] at h
        cases hs : splitDirFile m.name
        · rw [hs] at h
          cases h
        · rw [hs] at h
          exact ih _ _ h m2 h2 hfile
      · rw [Bool.not_eq_true] at hf
        rw [hf] at h
        simp only [Bool.not_false, if_true] at h
        exact ih _ _ h m2 h2 hfile

theorem walkZipGroups_ok_mem (names : List String) :
    ∀ (dirs gs : List (String × List (String × String))),
    walkZipGroups names dirs = .ok gs →
    ∀ nm ∈ names, pyEndsWith nm "/" = false → '/' ∈ nm.toList := by
  induction names with
  | nil => simp
  | cons nm0 rest ih =>
    intro dirs gs h nm2 hnm2 hdir
    unfold walkZipGroups at h
    rcases List.mem_cons.mp hnm2 with h1 | h2
    · subst h1
      rw [hdir] at h
      simp only [Bool.false_eq_true, if_false] at h
      cases hs : splitDirFile nm2
      · rw [hs] at h
        cases h
      · exact splitDirFile_ok_mem nm2 _ hs
    · by_cases hf : pyEndsWith nm0 "/" = true
      · rw [hf] at h
        simp only [if_true] at h
        exact ih _ _ h nm2 h2 hdir
      · rw [Bool.not_eq_true] at hf
        rw [hf] at h
        simp only [Bool.false_eq_true, if_false] at h
        cases hs : splitDirFile nm0
        · rw [hs] at h
          cases h
        · rw [hs] at h
          exact ih _ _ h nm2 h2 hdir

/-! ## Claim C10 -/

/-- C10: in remote archive mode (tar and zip alike), an archive file member
whose path contains no `/` makes `walk` fail at the `(directory, filename)`
unpacking, and whenever the indexing succeeds every grouped member path was
nested at least one directory deep. -/
theorem archive_root_member_fails (members : List TarMember) (names : List String)
    (dirs dirs2 : List (String × List (String × String))) :
    ((∃ m ∈ members, m.isFile = true ∧ '/' ∉ m.name.toList) →
      exOk (walkTarGroups members dirs) = false) ∧
    (∀ gs, walkTarGroups members dirs = .ok gs →
      ∀ m ∈ members, m.isFile = true → '/' ∈ m.name.toList) ∧
    ((∃ nm ∈ names, pyEndsWith nm "/" = false ∧ '/' ∉ nm.toList) →
      exOk (walkZipGroups names dirs2) = false) ∧
    (∀ gs, walkZipGroups names dirs2 = .ok gs →
      ∀ nm ∈ names, pyEndsWith nm "/" = false → '/' ∈ nm.toList) := by
  refine ⟨?_, walkTarGroups_ok_mem members dirs, ?_, walkZipGroups_ok_mem names dirs2⟩
  · rintro ⟨m, hm, hfile, hslash⟩
    cases hres : walkTarGroups members dirs
    · rfl
    · exact absurd (walkTarGroups_ok_mem members dirs _ hres m hm hfile) hslash
  · rintro ⟨nm, hnm, hdir, hslash⟩
    cases hres : walkZipGroups names dirs2
    · rfl
    · exact absurd (walkZipGroups_ok_mem names dirs2 _ hres nm hnm hdir) hslash

/-- Witness for C10: a root-level tar file member and a root-level zip name
each abort the indexing. -/
theorem archive_root_member_fails_witness :
    exOk (walkTarGroups [⟨"pax_global_header", true⟩, ⟨"d/x.md", true⟩] []) = false ∧
    exOk (walkZipGroups ["root.md", "d/x.md"] []) = false :=
  ⟨(archive_root_member_fails [⟨"pax_global_header", true⟩, ⟨"d/x.md", true⟩]
      ["root.md", "d/x.md"] [] []).1 (by decide),
   (archive_root_member_fails [⟨"pax_global_header", true⟩, ⟨"d/x.md", true⟩]
      ["root.md", "d/x.md"] [] []).2.2.1 (by decide)⟩

/-! ## splitext lemmas for the remote-extension check -/

theorem asString_toList (l : List Char) : (l.asString).toList = l := rfl

theorem revSpanToDot_append (ext rest : List Char)
    (hd : '.' ∉ ext) (hs : '/' ∉ ext) :
    revSpanToDot (ext ++ '.' :: rest) = some (ext, rest) := by
  induction ext with
  | nil => simp [revSpanToDot]
  | cons c cs ih =>
    have hc1 : ¬(c = '/') := fun hh => hs (by simp [hh])
    have hc2 : ¬(c = '.') := fun hh => hd (by simp [hh])
    have hd2 : '.' ∉ cs := fun hh => hd (List.mem_cons_of_mem c hh)
    have hs2 : '/' ∉ cs := fun hh => hs (List.mem_cons_of_mem c hh)
    simp [revSpanToDot, hc1, hc2, ih hd2 hs2]

theorem takeWhile_append_cons (p : Char → Bool) (l1 l2 : List Char) (c : Char)
    (hall : ∀ x ∈ l1, p x = true) (hc : p c = false) :
    List.takeWhile p (l1 ++ c :: l2) = l1 := by
  induction l1 with
  | nil => simp [List.takeWhile, hc]
  | cons a l ih =>
    have ha : p a = true := hall a (by simp)
    have hall2 : ∀ x ∈ l, p x = true := fun x hx => hall x (List.mem_cons_of_mem a hx)
    simp [List.takeWhile, ha, ih hall2]

theorem any_reverse_eq (p : Char → Bool) (l : List Char) :
    l.reverse.any p = l.any p := by
  induction l with
  | nil => rfl
  | cons c cs ih => simp [List.any_append, ih, Bool.or_comm]

/-- `posixpath.splitext` on a locator of the shape `pre/stem.ext` (with `ext`
dot- and slash-free and `stem` slash-free with a non-dot character) splits at
the final dot. -/
theorem splitextL_concat (pre stem ext : List Char)
    (hstem : '/' ∉ stem) (hany : stem.any (fun c => c ≠ '.') = true)
    (hext1 : '.' ∉ ext) (hext2 : '/' ∉ ext) :
    splitextL (pre ++ '/' :: (stem ++ '.' :: ext)) = (pre ++ '/' :: stem, '.' :: ext) := by
  unfold splitextL
  have hrev : (pre ++ '/' :: (stem ++ '.' :: ext)).reverse
      = ext.reverse ++ '.' :: (stem.reverse ++ '/' :: pre.reverse) := by
    simp
  rw [hrev, revSpanToDot_append ext.reverse (stem.reverse ++ '/' :: pre.reverse)
    (by simpa using hext1) (by simpa using hext2)]
  have htw : List.takeWhile (fun c => c ≠ '/') (stem.reverse ++ '/' :: pre.reverse)
      = stem.reverse := by
    refine takeWhile_append_cons _ _ _ _ ?_ (by simp)
    intro x hx
    have : x ∈ stem := List.mem_reverse.mp hx
    simp only [ne_eq, decide_eq_true_eq]
    exact fun hh => hstem (hh ▸ this)
  simp only [htw]
  rw [any_reverse_eq, hany]
  simp

theorem chainedExt_zip (pre stem : List Char)
    (hstem : '/' ∉ stem) (hany : stem.any (fun c => c ≠ '.') = true) :
    chainedExt ((pre ++ '/' :: (stem ++ ".zip".toList)).asString) = ".zip" := by
  unfold chainedExt splitextStr
  rw [asString_toList]
  have : pre ++ '/' :: (stem ++ ".zip".toList)
      = pre ++ '/' :: (stem ++ '.' :: "zip".toList) := rfl
  rw [this, splitextL_concat pre stem "zip".toList hstem hany (by decide) (by decide)]
  rfl

theorem chainedExt_targz (pre stem : List Char)
    (hstem : '/' ∉ stem) (hany : stem.any (fun c => c ≠ '.') = true) :
    chainedExt ((pre ++ '/' :: (stem ++ ".tar.gz".toList)).asString) = ".tar.gz" := by
  unfold chainedExt splitextStr
  rw [asString_toList]
  have h1 : pre ++ '/' :: (stem ++ ".tar.gz".toList)
      = pre ++ '/' :: ((stem ++ ".tar".toList) ++ '.' :: "gz".toList) := by
    simp [List.append_assoc]
  have hstem2 : '/' ∉ stem ++ ".tar".toList := by
    intro hh
    rcases List.mem_append.mp hh with hh1 | hh2
    · exact hstem hh1
    · simp at hh2
  have hany2 : (stem ++ ".tar".toList).any (fun c => c ≠ '.') = true := by
    rw [List.any_append]
    simp
  rw [h1, splitextL_concat pre (stem ++ ".tar".toList) "gz".toList hstem2 hany2
    (by decide) (by decide)]
  have h2 : (['.', 'g', 'z'].asString = ".gz") := rfl
  simp only [h2, if_true]
  show (splitextL (pre ++ '/' :: (stem ++ ".tar".toList))).2.asString ++ ".gz" = ".tar.gz"
  have h3 : pre ++ '/' :: (stem ++ ".tar".toList)
      = pre ++ '/' :: (stem ++ '.' :: "tar".toList) := rfl
  rw [h3, splitextL_concat pre stem "tar".toList hstem hany (by decide) (by decide)]
  rfl

/-! ## Claim C8 (corrected) -/

/-- Counterexample to C8 as stated: the remote locator
`"http://example.com/.zip"` ends in `.zip`, yet `splitext` assigns its final
component no extension (a leading-dot component), so the computed extension is
empty and the check rejects it. -/
theorem remote_extension_check_cex :
    strContains "http://example.com/.zip" "://" = true ∧
    pyEndsWith "http://example.com/.zip" ".zip" = true ∧
    walkCheckRemote "http://example.com/.zip" =
      .error "unrecognized format for network-based template: " := by
  refine ⟨by decide, by decide, by decide⟩

/-- C8 amended: a remote locator whose computed (chained) extension is neither
`.tar.gz` nor `.zip` makes `walk` fail before any network access (the result
is an error independent of what the network would return); and locators of
the form `pre/stem.tar.gz` or `pre/stem.zip` — `stem` slash-free with at
least one non-dot character — pass the check. -/
theorem remote_extension_check_amended (net : String → List Nat) (root : String)
    (pre stem : List Char) :
    (chainedExt root ≠ ".tar.gz" → chainedExt root ≠ ".zip" →
      walkRemotePrelude net root =
        .error ("unrecognized format for network-based template: " ++ chainedExt root)) ∧
    ('/' ∉ stem → stem.any (fun c => c ≠ '.') = true →
      walkCheckRemote ((pre ++ '/' :: (stem ++ ".tar.gz".toList)).asString) = .ok ".tar.gz" ∧
      walkCheckRemote ((pre ++ '/' :: (stem ++ ".zip".toList)).asString) = .ok ".zip") := by
  have hck : ∀ r : String, walkCheckRemote r =
      if (chainedExt r = ".tar.gz" || chainedExt r = ".zip") then .ok (chainedExt r)
      else .error ("unrecognized format for network-based template: " ++ chainedExt r) :=
    fun _ => rfl
  constructor
  · intro h1 h2
    unfold walkRemotePrelude
    rw [hck root, if_neg (by simp [h1, h2])]
  · intro hstem hany
    constructor
    · rw [hck, chainedExt_targz pre stem hstem hany, if_pos (by decide)]
    · rw [hck, chainedExt_zip pre stem hstem hany, if_pos (by decide)]

/-- Witness for the corrected C8: a `.txt` locator is rejected independently
of the network, while well-formed `.tar.gz` and `.zip` locators pass. -/
theorem remote_extension_check_amended_witness :
    walkRemotePrelude (fun _ => []) "http://e/t.txt" =
      .error ("unrecognized format for network-based template: " ++
        chainedExt "http://e/t.txt") ∧
    walkCheckRemote (("http://host".toList ++ '/' ::
      ("snap".toList ++ ".tar.gz".toList)).asString) = .ok ".tar.gz" ∧
    walkCheckRemote (("http://host".toList ++ '/' ::
      ("snap".toList ++ ".zip".toList)).asString) = .ok ".zip" :=
  ⟨(remote_extension_check_amended (fun _ => []) "http://e/t.txt"
      "http://host".toList "snap".toList).1 (by decide) (by decide),
   (remote_extension_check_amended (fun _ => []) "http://e/t.txt"
      "http://host".toList "snap".toList).2 (by decide) (by decide)⟩

/-! ## Resolver lemmas -/

theorem asString_of_toList (s : String) : s.toList.asString = s := rfl

theorem splitAtCharL_some_decomp (stop : Char) :
    ∀ (l k rest : List Char), splitAtCharL stop l = some (k, rest) →
    l = k ++ stop :: rest ∧ stop ∉ k := by
  intro l
  induction l with
  | nil => intro k rest h; cases h
  | cons c cs ih =>
    intro k rest h
    unfold splitAtCharL at h
    by_cases hc : c = stop
    · rw [if_pos hc] at h
      cases h
      subst hc
      exact ⟨rfl, by simp⟩
    · rw [if_neg hc] at h
      cases hs : splitAtCharL stop cs
      · rw [hs] at h
        cases h
      · rename_i p
        rw [hs] at h
        cases h
        obtain ⟨hdec, hmem⟩ := ih p.1 p.2 hs
        constructor
        · rw [hdec]
          rfl
        · intro hin
          rcases List.mem_cons.mp hin with h1 | h2
          · exact hc h1.symm
          · exact hmem h2

theorem splitAtCharL_concat (stop : Char) (k rest : List Char) (h : stop ∉ k) :
    splitAtCharL stop (k ++ stop :: rest) = some (k, rest) := by
  induction k with
  | nil => simp [splitAtCharL]
  | cons c cs ih =>
    have hc : ¬(c = stop) := fun hh => h (by simp [hh])
    have h2 : stop ∉ cs := fun hh => h (List.mem_cons_of_mem c hh)
    simp [splitAtCharL, hc, ih h2]

theorem dropWhile_append_cons (p : Char → Bool) (l1 l2 : List Char) (c : Char)
    (hall : ∀ x ∈ l1, p x = true) (hc : p c = false) :
    List.dropWhile p (l1 ++ c :: l2) = c :: l2 := by
  induction l1 with
  | nil => simp [List.dropWhile, hc]
  | cons a l ih =>
    have ha : p a = true := hall a (by simp)
    have hall2 : ∀ x ∈ l, p x = true := fun x hx => hall x (List.mem_cons_of_mem a hx)
    simp [List.dropWhile, ha, ih hall2]

theorem takeIdent_concat (l1 x : List Char)
    (hall : ∀ c ∈ l1, (!(c = '.' || c = '[')) = true) :
    takeIdent (l1 ++ '[' :: x) = (l1, '[' :: x) := by
  unfold takeIdent
  rw [takeWhile_append_cons _ _ _ _ hall (by decide),
    dropWhile_append_cons _ _ _ _ hall (by decide)]

theorem takeIdent_split (f : List Char) : f = (takeIdent f).1 ++ (takeIdent f).2 := by
  unfold takeIdent
  rw [List.takeWhile_append_dropWhile]

/-- The structural content of a successful `extractRef`. -/
theorem extractRef_shape (f : List Char) (ns key : String)
    (h : extractRef f = some (ns, key)) :
    (ns = "milestone" ∨ ns = "issue") ∧ ']' ∉ key.toList ∧
    ∃ rest2, f = ns.toList ++ '[' :: (key.toList ++ ']' :: rest2) := by
  have hsplit := takeIdent_split f
  unfold extractRef at h
  by_cases hb : ((takeIdent f).1.asString = "milestone" ||
      (takeIdent f).1.asString = "issue") = true
  · rw [if_pos hb] at h
    cases hd : (takeIdent f).2 with
    | nil =>
      rw [hd] at h
      cases h
    | cons c restk =>
      rw [hd] at h
      dsimp only at h
      by_cases hc : c = '['
      · rw [if_pos hc] at h
        cases hs : splitAtCharL ']' restk
        · rw [hs] at h
          cases h
        · rename_i p
          rw [hs] at h
          dsimp only [Option.map] at h
          cases h
          obtain ⟨hdec, hmem⟩ := splitAtCharL_some_decomp ']' restk p.1 p.2 hs
          refine ⟨by simpa using hb, by simpa [asString_toList] using hmem, p.2, ?_⟩
          rw [asString_toList, asString_toList]
          conv_lhs => rw [hsplit, hd]
          rw [hc, hdec]
      · rw [if_neg hc] at h
        cases h
  · rw [if_neg hb] at h
    cases h

/-- When the field names a `milestone`/`issue` reference whose key is absent
from the namespace dict, interpreting the field yields a `KeyError` naming
the key. -/
theorem interpretField_ref_missing (ctx : Ctx) (ns key : String)
    (tail1 : List Char) (d : List (String × EntryObj))
    (hnsform : ns = "milestone" ∨ ns = "issue")
    (hns : ctxNs ctx ns = some d)
    (hkey : ']' ∉ key.toList)
    (hmiss : d.lookup key = none) :
    interpretField ctx (ns.toList ++ '[' :: (key.toList ++ ']' :: tail1)) =
      .error (keyErrorMsg key) := by
  have hti : takeIdent (ns.toList ++ '[' :: (key.toList ++ ']' :: tail1)) =
      (ns.toList, '[' :: (key.toList ++ ']' :: tail1)) := by
    rcases hnsform with h | h <;> subst h <;>
      exact takeIdent_concat _ _ (by decide)
  have hsp : splitAtCharL ']' (key.toList ++ ']' :: tail1) = some (key.toList, tail1) :=
    splitAtCharL_concat ']' key.toList tail1 hkey
  have hne : ¬(((ns.toList).asString.isEmpty || (ns.toList).all Char.isDigit) = true) := by
    rcases hnsform with h | h <;> subst h <;> decide
  have hacc : applyAccessors (('[' :: (key.toList ++ ']' :: tail1)).length + 1)
      (.vdict d) ('[' :: (key.toList ++ ']' :: tail1)) = .error (keyErrorMsg key) := by
    show applyAccessors ((key.toList ++ ']' :: tail1).length + 1 + 1) _ _ = _
    simp only [applyAccessors, hsp]
    rw [asString_of_toList]
    simp only [pyGetitem, hmiss]
  unfold interpretField
  rw [hti]
  dsimp only
  rw [if_neg hne]
  rw [asString_of_toList, hns]
  dsimp only
  rw [hacc]

/-- A field that both interprets successfully and has `milestone[...]`/
`issue[...]` form looked its key up successfully. -/
theorem interpretField_ok_ref (ctx : Ctx) (f : List Char) (v : String)
    (ns key : String) (hok : interpretField ctx f = .ok v)
    (href : extractRef f = some (ns, key)) :
    refLookup ctx (ns, key) ≠ none := by
  intro hmiss
  obtain ⟨hnsform, hkey, rest2, hshape⟩ := extractRef_shape f ns key href
  have hd : ∃ d, ctxNs ctx ns = some d := by
    rcases hnsform with h | h <;> subst h
    · exact ⟨ctx.milestone, rfl⟩
    · exact ⟨ctx.issue, rfl⟩
  obtain ⟨d, hd⟩ := hd
  have hlk : d.lookup key = none := by
    unfold refLookup at hmiss
    rw [hd] at hmiss
    simpa using hmiss
  have herr := interpretField_ref_missing ctx ns key rest2 d hnsform hd hkey hlk
  rw [hshape, herr] at hok
  cases hok

/-- Every reference `fieldRefsF` collects names the `milestone` or `issue`
namespace and has a `]`-free key. -/
theorem fieldRefsF_mem (fuel : Nat) :
    ∀ (cs : List Char) (r : String × String), r ∈ fieldRefsF fuel cs →
    (r.1 = "milestone" ∨ r.1 = "issue") ∧ ']' ∉ r.2.toList := by
  induction fuel with
  | zero =>
    intro cs r hr
    simp [fieldRefsF] at hr
  | succ fuel ih =>
    intro cs r hr
    cases cs with
    | nil => simp [fieldRefsF] at hr
    | cons c cs2 =>
      simp only [fieldRefsF] at hr
      by_cases hc1 : c = '{'
      · rw [if_pos hc1] at hr
        by_cases hc2 : cs2.head? = some '{'
        · rw [if_pos hc2] at hr
          exact ih _ _ hr
        · rw [if_neg hc2] at hr
          cases hfs : fieldSplit cs2
          · rw [hfs] at hr
            simp at hr
          · rename_i p
            rw [hfs] at hr
            dsimp only at hr
            cases her : extractRef p.1
            · rw [her] at hr
              dsimp only at hr
              exact ih _ _ hr
            · rename_i r0
              rw [her] at hr
              dsimp only at hr
              rcases List.mem_cons.mp hr with h1 | h2
              · subst h1
                exact ⟨(extractRef_shape p.1 r.1 r.2 her).1,
                       (extractRef_shape p.1 r.1 r.2 her).2.1⟩
              · exact ih _ _ h2
      · by_cases hc2 : c = '}'
        · rw [if_neg hc1, if_pos hc2] at hr
          by_cases hc3 : cs2.head? = some '}'
          · rw [if_pos hc3] at hr
            exact ih _ _ hr
          · rw [if_neg hc3] at hr
            simp at hr
        · rw [if_neg hc1, if_neg hc2] at hr
          exact ih _ _ hr

/-- If the format scan succeeds, every `milestone[...]`/`issue[...]` reference
it encountered was present in the context. -/
theorem resolveF_ok_refs (ctx : Ctx) (fuel : Nat) :
    ∀ (cs out : List Char), resolveF ctx fuel cs = .ok out →
    ∀ r ∈ fieldRefsF fuel cs, refLookup ctx r ≠ none := by
  induction fuel with
  | zero =>
    intro cs out h
    cases h
  | succ fuel ih =>
    intro cs out h r hr
    cases cs with
    | nil => simp [fieldRefsF] at hr
    | cons c cs2 =>
      simp only [resolveF] at h
      simp only [fieldRefsF] at hr
      by_cases hc1 : c = '{'
      · rw [if_pos hc1] at h hr
        by_cases hc2 : cs2.head? = some '{'
        · rw [if_pos hc2] at h hr
          split at h
          · cases h
          rename_i out2 hres
          exact ih _ _ hres r hr
        · rw [if_neg hc2] at h hr
          split at h
          · cases h
          rename_i fld rest hfs
          rw [hfs] at hr
          dsimp only at hr
          split at h
          · cases h
          rename_i piece hif
          split at h
          · cases h
          rename_i out2 hres
          cases her : extractRef fld
          · rw [her] at hr
            dsimp only at hr
            exact ih _ _ hres r hr
          · rename_i r0
            rw [her] at hr
            dsimp only at hr
            rcases List.mem_cons.mp hr with h1 | h2
            · subst h1
              exact interpretField_ok_ref ctx fld piece r.1 r.2 hif her
            · exact ih _ _ hres r h2
      · by_cases hc2 : c = '}'
        · rw [if_neg hc1, if_pos hc2] at h hr
          by_cases hc3 : cs2.head? = some '}'
          · rw [if_pos hc3] at h hr
            split at h
            · cases h
            rename_i out2 hres
            exact ih _ _ hres r hr
          · rw [if_neg hc3] at h
            cases h
        · rw [if_neg hc1, if_neg hc2] at h hr
          split at h
          · cases h
          rename_i out2 hres
          exact ih _ _ hres r hr

/-! ## Claim C3 -/

/-- C3: a body referencing a path absent from the current context (in the
`milestone` or `issue` namespace) never resolves successfully — resolution
fails outright rather than substituting empty or deferring — and the field
interpreter's error is a `KeyError` naming the missing path. -/
theorem missing_reference_fails (ctx : Ctx) (body : String) (ns key : String)
    (href : (ns, key) ∈ fieldRefs body) (hmiss : refLookup ctx (ns, key) = none) :
    exOk (resolveBody ctx body) = false ∧
    ∀ tail1 : List Char,
      interpretField ctx (ns.toList ++ '[' :: (key.toList ++ ']' :: tail1)) =
        .error (keyErrorMsg key) := by
  have hprops := fieldRefsF_mem (body.toList.length + 1) body.toList (ns, key) href
  obtain ⟨hnsform, hkey⟩ := hprops
  have hd : ∃ d, ctxNs ctx ns = some d := by
    rcases hnsform with h | h <;> subst h
    · exact ⟨ctx.milestone, rfl⟩
    · exact ⟨ctx.issue, rfl⟩
  obtain ⟨d, hd⟩ := hd
  have hlk : d.lookup key = none := by
    unfold refLookup at hmiss
    rw [hd] at hmiss
    simpa using hmiss
  constructor
  · cases hres : resolveF ctx (body.toList.length + 1) body.toList
    · unfold resolveBody
      rw [hres]
      rfl
    · exact absurd hmiss (resolveF_ok_refs ctx _ _ _ hres (ns, key) href)
  · intro tail1
    exact interpretField_ref_missing ctx ns key tail1 d hnsform hd hkey hlk

/-- Witness for C3: with an empty context, a body referencing
`milestone[a/b.md]` fails to resolve, and the interpreter reports the
missing path. -/
theorem missing_reference_fails_witness :
    exOk (resolveBody Ctx.empty "see \x7bmilestone[a/b.md].number\x7d also") = false ∧
    interpretField Ctx.empty
      ("milestone".toList ++ '[' :: ("a/b.md".toList ++ ']' :: ".number".toList)) =
      .error (keyErrorMsg "a/b.md") :=
  ⟨(missing_reference_fails Ctx.empty "see \x7bmilestone[a/b.md].number\x7d also"
      "milestone" "a/b.md" (by decide) (by decide)).1,
   (missing_reference_fails Ctx.empty "see \x7bmilestone[a/b.md].number\x7d also"
      "milestone" "a/b.md" (by decide) (by decide)).2 ".number".toList⟩

/-! ## Response-handling lemmas -/

theorem asciiDecode_nonascii :
    ∀ bytes : List Nat, (∃ b ∈ bytes, 128 ≤ b) → exOk (asciiDecode bytes) = false := by
  intro bytes
  induction bytes with
  | nil => rintro ⟨b, hb, _⟩; cases hb
  | cons b bs ih =>
    rintro ⟨b0, hb0, hge⟩
    unfold asciiDecode
    by_cases hlt : b < 128
    · rw [if_pos hlt]
      have hbs : ∃ b2 ∈ bs, 128 ≤ b2 := by
        rcases List.mem_cons.mp hb0 with h1 | h2
        · subst h1
          omega
        · exact ⟨b0, h2, hge⟩
      have := ih hbs
      cases hres : asciiDecode bs
      · rfl
      · rw [hres] at this
        cases this
    · rw [if_neg hlt]
      rfl

/-! ## Claim C9 (corrected) -/

/-- Counterexample to C9 as stated: a JSON response declaring no charset whose
body is valid UTF-8 (containing a non-ASCII byte pair) is rejected by the code
— `payload_bytes.decode(charset)` with `charset = None` uses the interpreter
default codec (ASCII), not UTF-8 — while the claim's UTF-8-defaulting reading
would accept it and record number 5. -/
theorem response_decoding_cex :
    handleCreateResponse ⟨"application/json", none,
      [0x7b, 0x22, 0x74, 0x22, 0x3a, 0x22, 0xC3, 0xA9, 0x22, 0x2c,
       0x22, 0x6e, 0x75, 0x6d, 0x62, 0x65, 0x72, 0x22, 0x3a, 0x35, 0x7d]⟩ =
      .error "UnicodeDecodeError: ascii codec cannot decode byte" ∧
    claimHandleCreateResponse ⟨"application/json", none,
      [0x7b, 0x22, 0x74, 0x22, 0x3a, 0x22, 0xC3, 0xA9, 0x22, 0x2c,
       0x22, 0x6e, 0x75, 0x6d, 0x62, 0x65, 0x72, 0x22, 0x3a, 0x35, 0x7d]⟩ =
      .ok (.jint 5) := by
  refine ⟨by decide, by decide⟩

/-- C9 amended: a non-JSON content type is a fatal protocol error whatever the
body holds (the body is never read); with a JSON content type the body is
decoded with the charset the response declares and the entry number is read
from the JSON's `number` field; but when no charset is declared there is no
UTF-8 default — the bytes go through the interpreter's default ASCII codec,
so any non-ASCII byte aborts. -/
theorem response_decoding_amended (r : HttpResponse) :
    (r.contentType ≠ "application/json" →
      ∀ body2, handleCreateResponse ⟨r.contentType, r.charsetParam, body2⟩ =
        .error ("invalid response type: " ++ r.contentType)) ∧
    (r.contentType = "application/json" →
      ∀ (s : String) (fields : List (String × JPrim)) (v : JPrim),
      pyDecode r.charsetParam r.body = .ok s →
      jsonLoadsFlat s = .ok fields →
      fields.lookup "number" = some v →
      handleCreateResponse r = .ok v) ∧
    (r.charsetParam = none → (∃ b ∈ r.body, 128 ≤ b) →
      exOk (pyDecode r.charsetParam r.body) = false) := by
  refine ⟨?_, ?_, ?_⟩
  · intro hct body2
    unfold handleCreateResponse
    rw [if_pos hct]
  · intro hct s fields v hdec hjson hnum
    unfold handleCreateResponse
    rw [if_neg (by simp [hct])]
    rw [hdec]
    dsimp only
    rw [hjson]
    dsimp only
    rw [hnum]
  · intro hcs hbytes
    rw [hcs]
    unfold pyDecode
    have := asciiDecode_nonascii r.body hbytes
    cases hres : asciiDecode r.body
    · rfl
    · rw [hres] at this
      cases this

/-- Witness for the corrected C9 at concrete responses: a `text/html` response
is rejected independently of its body; a UTF-8-declared JSON response yields
its number; a charset-less response with a non-ASCII byte fails to decode. -/
theorem response_decoding_amended_witness :
    handleCreateResponse ⟨"text/html", some "UTF-8", [1, 2, 3]⟩ =
      .error "invalid response type: text/html" ∧
    handleCreateResponse ⟨"application/json", some "UTF-8",
      "\x7b\"number\": 7\x7d".toList.map Char.toNat⟩ = .ok (.jint 7) ∧
    exOk (pyDecode (⟨"application/json", none, [0x22, 0xC3, 0xA9, 0x22]⟩ :
      HttpResponse).charsetParam [0x22, 0xC3, 0xA9, 0x22]) = false :=
  ⟨(response_decoding_amended ⟨"text/html", some "UTF-8", []⟩).1 (by decide) [1, 2, 3],
   (response_decoding_amended ⟨"application/json", some "UTF-8",
      "\x7b\"number\": 7\x7d".toList.map Char.toNat⟩).2.1 (by decide)
     "\x7b\"number\": 7\x7d" [("number", .jint 7)] (.jint 7)
     (by decide) (by decide) (by decide),
   (response_decoding_amended ⟨"application/json", none,
      [0x22, 0xC3, 0xA9, 0x22]⟩).2.2 (by decide) ⟨0xC3, by decide, by decide⟩⟩

end GPI
